import Mathlib

set_option autoImplicit false

/-! Shallow embedding of `archiver.py` (class `Archiver`), a multi-host
archive / checksum-verify / clean pipeline driven by external processes.
External effects (per-host process results, the filesystem, the hashing
utility) are supplied by a `World` record of oracles; each Python method is
translated one-to-one into a Lean function over that record.  `sys.exit`
and uncaught Python exceptions are modelled by the `Halt` error type. -/

namespace Archiver

/-- Python dict modelled as an insertion-ordered association list:
`d[k] = v` keeps the position of an existing key (CPython 3.7+ semantics,
which also fixes the iteration order of `.items()`) and appends a fresh key
at the end. -/
def pyUpdate {α : Type} (m : List (String × α)) (k : String) (v : α) : List (String × α) :=
  if (m.map Prod.fst).contains k then
    m.map (fun p => if p.1 = k then (k, v) else p)
  else m ++ [(k, v)]

/-- Python `d[k]` lookup, `none` standing for a raised `KeyError`. -/
def pyGet {α : Type} (m : List (String × α)) (k : String) : Option α :=
  (m.find? (fun p => p.1 == k)).map Prod.snd

/-- Prepend a character to the first field of a split result. -/
def consHead (c : Char) : List (List Char) → List (List Char)
  | [] => [[c]]
  | hd :: tl => (c :: hd) :: tl

/-- Python `str.split('\n')` on the character list of a string. -/
def pySplitNl : List Char → List (List Char)
  | [] => [[]]
  | c :: rest =>
    if c = '\n' then [] :: pySplitNl rest
    else consHead c (pySplitNl rest)

/-- Python `str.split('  ')` (two-space separator, leftmost match) on the
character list of a string. -/
def pySplitSp : List Char → List (List Char)
  | [] => [[]]
  | [c] => [[c]]
  | c1 :: c2 :: rest =>
    if c1 = ' ' ∧ c2 = ' ' then [] :: pySplitSp rest
    else consHead c1 (pySplitSp (c2 :: rest))

/-- Character lists free of newline characters. -/
def nlFree (l : List Char) : Bool :=
  l.all (fun c => !(c == '\n'))

/-- Character lists containing no two consecutive spaces. -/
def sp2Free : List Char → Bool
  | [] => true
  | [_] => true
  | c1 :: c2 :: rest => if c1 = ' ' ∧ c2 = ' ' then false else sp2Free (c2 :: rest)

/-- Python substring test `needle in hay`. -/
def pyInStr (needle hay : String) : Bool :=
  (List.range (hay.toList.length + 1)).any
    (fun i => needle.toList.isPrefixOf (hay.toList.drop i))

/-- One iteration of the `for line in a` loop of `Archiver.getHashes`:
`list = line.split('  ')`; when `len(list[0]) > 0` the pair
`{list[0]: list[1]}` is written into the dict, and `list[1]` raises an
`IndexError` (modelled by `Except.error ()`) when the line has no two-space
separator; otherwise the line is skipped. -/
def getHashesLine (acc : List (String × String)) (line : String) :
    Except Unit (List (String × String)) :=
  match (pySplitSp line.toList).map String.mk with
  | [] => Except.error ()
  | l0 :: rest =>
    if l0.length > 0 then
      match rest with
      | [] => Except.error ()
      | l1 :: _ => Except.ok (pyUpdate acc l0 l1)
    else Except.ok acc

/-- The `for` loop of `Archiver.getHashes` over the list of lines. -/
def getHashesLines : List String → List (String × String) →
    Except Unit (List (String × String))
  | [], acc => Except.ok acc
  | line :: rest, acc =>
    match getHashesLine acc line with
    | Except.error e => Except.error e
    | Except.ok acc' => getHashesLines rest acc'

/-- `Archiver.getHashes`: split the captured output on newlines and build the
hash-to-filename dict, skipping lines whose hash field is empty. -/
def getHashes (stdout : String) : Except Unit (List (String × String)) :=
  getHashesLines ((pySplitNl stdout.toList).map String.mk) []

/-- Model of a raised `OSError` (only the `errno` field is consulted). -/
structure OSErr where
  errno : Nat
deriving DecidableEq

/-- Linux `errno.EEXIST`. -/
def EEXIST : Nat := 17

/-- Ways the process terminates abnormally: a `sys.exit(code)` call, or an
uncaught `KeyError` / `IndexError` / `OSError`. -/
inductive Halt where
  | exit (code : Nat)
  | keyError
  | indexError
  | osErr (e : OSErr)
deriving DecidableEq

/-- Exit code of `sys.exit(1)` in `setupArguments` (usage / missing `--run`). -/
def exitUsage : Nat := 1

/-- Exit code of `sys.exit(3)` in `runProcs` (batch produced errors). -/
def exitBatchErrors : Nat := 3

/-- Exit code of `sys.exit(4)` in `buildCommands` (invalid namespace). -/
def exitInvalidCommand : Nat := 4

/-- Exit code of `sys.exit(5)` in `verifyChecksums` (checksum mismatch). -/
def exitChecksumError : Nat := 5

/-- Exit code of `sys.exit(6)` in `verifyChecksums` (skipped after errors). -/
def exitVerifySkipped : Nat := 6

/-- Exit code of `sys.exit(7)` in `clean` (skipped after errors). -/
def exitCleanSkipped : Nat := 7

/-- A source descriptor from `settings.sources`. -/
structure Source where
  host : String
  user : String
  folder : String
  extension : String
  maxAge : String
deriving DecidableEq

/-- The configuration loaded from `settings` (`targetFolder`, `sources`). -/
structure Config where
  targetFolder : String
  sources : List Source
deriving DecidableEq

/-- The `self.actions` dict set up by `setupArguments`. -/
structure Actions where
  clean : Bool
  run : Bool
deriving DecidableEq

/-- The outcome of one terminated external process: captured standard
output, captured error output, and `Popen.returncode` (an `Int`, since a
process killed by a signal reports the negated signal number). -/
structure ProcResult where
  stdout : String
  stderr : String
  returncode : Int
deriving DecidableEq

/-- One entry of the result store `self.processInfo[namespace]`. -/
structure HostResult where
  returncode : Option Int
  stdout : String
  stderr : String
deriving DecidableEq

/-- The fresh entry written by `initProcessInfo`. -/
def emptyHostResult : HostResult := ⟨none, "", ""⟩

/-- The nested dict `self.processInfo`. -/
abbrev PInfo := List (String × List (String × HostResult))

/-- The mutable state of the `Archiver` object: `self.processInfo` and the
error flag `self.errors`. -/
structure ArchState where
  processInfo : PInfo
  errors : Bool
deriving DecidableEq

/-- The state right after `Archiver.__init__`: empty store, flag unset. -/
def initState : ArchState := ⟨[], false⟩

/-- Oracles for everything outside the program: the result each external
process would produce, the order in which the polling loop of `runProcs`
observes completions, `os.makedirs` / `os.path.isdir` behaviour, local file
readability, and the md5 hex digest of a byte string. -/
structure World where
  procResult : String → String → ProcResult
  schedule : String → List String → List String
  mkdirs : String → Option OSErr
  isdir : String → Bool
  readFile : String → Option String
  md5Hex : String → String

/-- Launched commands, tagged with the namespace that launched them: one
entry is appended per `subprocess.Popen` call. -/
abbrev Trace := List (String × String)

/-- `Archiver.initProcessInfo`: for each source the code executes
`self.processInfo.update({namespace: {host: fresh}})`, which replaces the
whole inner dict of the namespace with a singleton on every iteration. -/
def initProcessInfo (sources : List Source) (processInfo : PInfo) (ns : String) : PInfo :=
  sources.foldl (fun pi src => pyUpdate pi ns [(src.host, emptyHostResult)]) processInfo

/-- `Archiver.buildTargetFolder`: format the folder, `os.makedirs` it,
swallow `EEXIST` when a directory is already there, re-raise otherwise. -/
def buildTargetFolder (w : World) (targetFolder sourceHost sourceFolder : String) :
    Except Halt String :=
  let folder := targetFolder ++ "/" ++ sourceHost ++ sourceFolder
  match w.mkdirs folder with
  | none => Except.ok folder
  | some exc =>
    if exc.errno = EEXIST ∧ w.isdir folder then Except.ok folder
    else Except.error (Halt.osErr exc)

/-- `Archiver.calculateLocalHash`: stream the file through md5 in 128-byte
chunks (incremental `hash.update` over the chunks equals hashing the whole
content, so the oracle hashes the content in one step); any exception while
opening or reading returns Python `False`, modelled as `none`. -/
def calculateLocalHash (w : World) (filename : String) : Option String :=
  match w.readFile filename with
  | none => none
  | some data => some (w.md5Hex data)

/-- The `for hash, filename in hashesRemote.items()` loop of
`Archiver.compareHashes`: any pair whose recomputed local hash differs from
the remote hash returns `False` at once. -/
def compareHashesLoop (w : World) (localFolder : String) : List (String × String) → Bool
  | [] => true
  | (hash, filename) :: rest =>
    if calculateLocalHash w (localFolder ++ filename) = some hash then
      compareHashesLoop w localFolder rest
    else false

/-- `Archiver.compareHashes`: empty raw output returns `False` immediately;
otherwise parse the listing (`getHashes` may raise `IndexError`) and run the
comparison loop against `targetFolder/host + filename`. -/
def compareHashes (w : World) (targetFolder : String) (source : Source)
    (stdoutRemote : String) : Except Unit Bool :=
  if stdoutRemote.length = 0 then Except.ok false
  else
    match getHashes stdoutRemote with
    | Except.error e => Except.error e
    | Except.ok hashesRemote =>
      Except.ok (compareHashesLoop w (targetFolder ++ "/" ++ source.host) hashesRemote)

/-- The body of the polling loop of `Archiver.runProcs` for one terminated
process: store stdout, stderr and returncode into
`self.processInfo[namespace][server]` (a `KeyError` if either key is
missing), and set `self.errors` when `returncode > 0` or stderr is
non-empty. -/
def recordProc (st : ArchState) (ns host : String) (r : ProcResult) :
    Except Halt ArchState :=
  match pyGet st.processInfo ns with
  | none => Except.error Halt.keyError
  | some inner =>
    match pyGet inner host with
    | none => Except.error Halt.keyError
    | some _ =>
      Except.ok
        { processInfo :=
            pyUpdate st.processInfo ns
              (pyUpdate inner host ⟨some r.returncode, r.stdout, r.stderr⟩),
          errors :=
            if r.returncode > 0 ∨ r.stderr.length > 0 then true else st.errors }

/-- The polling loop of `Archiver.runProcs`, processing terminated processes
in the order the scheduler delivers them. -/
def runProcsLoop (w : World) (ns : String) : List String → ArchState →
    Except Halt ArchState
  | [], st => Except.ok st
  | host :: rest, st =>
    match recordProc st ns host (w.procResult ns host) with
    | Except.error h => Except.error h
    | Except.ok st' => runProcsLoop w ns rest st'

/-- `Archiver.runProcs`: drain the batch (completion order given by the
world's scheduler), then `sys.exit(3)` if the error flag is set.  The
`logProcessInfo` call only appends to external log sinks and is not
modelled. -/
def runProcs (w : World) (ns : String) (hosts : List String) (st : ArchState) :
    Except Halt ArchState :=
  match runProcsLoop w ns (w.schedule ns hosts) st with
  | Except.error h => Except.error h
  | Except.ok st' =>
    if st'.errors then Except.error (Halt.exit exitBatchErrors) else Except.ok st'

/-- The command-template dispatch of `Archiver.buildCommands` (the four
namespace branches; `none` for the `sys.exit(4)` branch). -/
def buildCmd (ns : String) (src : Source) (builtFolder : String) : Option String :=
  if ns = "archive" then
    some ("rsync -avz " ++ src.user ++ "@" ++ src.host ++ ":" ++ src.folder
      ++ "/ " ++ builtFolder)
  else if ns = "clean" then
    some ("ssh " ++ src.user ++ "@" ++ src.host ++ " find " ++ src.folder
      ++ " -type f -name \"*." ++ src.extension ++ "\" -mtime +" ++ src.maxAge
      ++ " -exec rm \x7b\x7d \\;")
  else if ns = "localchecksum" then
    some ("find " ++ builtFolder ++ " -type f -name *." ++ src.extension
      ++ " -exec md5sum \x7b\x7d ;")
  else if ns = "remotechecksum" then
    some ("ssh " ++ src.user ++ "@" ++ src.host ++ " find " ++ src.folder
      ++ " -type f -name \"*." ++ src.extension ++ "\" -exec md5sum \x7b\x7d \\;")
  else none

/-- The per-source loop of `Archiver.buildCommands`: build the target
folder (which may raise), dispatch the command template (`sys.exit(4)` on an
unknown namespace), launch the process (recorded in the trace) and collect
the host handle. -/
def buildCommandsLoop (w : World) (cfg : Config) (ns : String) :
    List Source → Trace → Trace × Except Halt (List String)
  | [], tr => (tr, Except.ok [])
  | src :: rest, tr =>
    match buildTargetFolder w cfg.targetFolder src.host src.folder with
    | Except.error h => (tr, Except.error h)
    | Except.ok builtFolder =>
      match buildCmd ns src builtFolder with
      | none => (tr, Except.error (Halt.exit exitInvalidCommand))
      | some cmd =>
        match buildCommandsLoop w cfg ns rest (tr ++ [(ns, cmd)]) with
        | (tr', Except.error h) => (tr', Except.error h)
        | (tr', Except.ok hosts) => (tr', Except.ok (src.host :: hosts))

/-- `Archiver.buildCommands`: initialise the result store for the
namespace, then run the per-source loop. -/
def buildCommands (w : World) (cfg : Config) (ns : String) (st : ArchState)
    (tr : Trace) : Trace × Except Halt (ArchState × List String) :=
  let st' : ArchState := { st with processInfo := initProcessInfo cfg.sources st.processInfo ns }
  match buildCommandsLoop w cfg ns cfg.sources tr with
  | (tr', Except.error h) => (tr', Except.error h)
  | (tr', Except.ok hosts) => (tr', Except.ok (st', hosts))

/-- `Archiver.archive`: build and launch the `archive` batch, then drain it. -/
def archive (w : World) (cfg : Config) (st : ArchState) (tr : Trace) :
    Trace × Except Halt ArchState :=
  match buildCommands w cfg "archive" st tr with
  | (tr', Except.error h) => (tr', Except.error h)
  | (tr', Except.ok (st', hosts)) => (tr', runProcs w "archive" hosts st')

/-- The stored stdout `self.processInfo[ns][host]['stdout']`, if present. -/
def recordedStdout (st : ArchState) (ns host : String) : Option String :=
  match pyGet st.processInfo ns with
  | none => none
  | some inner =>
    match pyGet inner host with
    | none => none
    | some hr => some hr.stdout

/-- The `for source in self.sources` loop of `Archiver.verifyChecksums`:
rebuild the target folder (may raise), read the stored remote listing (a
`KeyError` if absent), compare hashes (`IndexError` propagates out of
`getHashes`), and `sys.exit(5)` on the first host whose comparison fails. -/
def verifyLoop (w : World) (cfg : Config) (st : ArchState) :
    List Source → Except Halt Unit
  | [] => Except.ok ()
  | src :: rest =>
    match buildTargetFolder w cfg.targetFolder src.host src.folder with
    | Except.error h => Except.error h
    | Except.ok _ =>
      match recordedStdout st "remotechecksum" src.host with
      | none => Except.error Halt.keyError
      | some out =>
        match compareHashes w cfg.targetFolder src out with
        | Except.error _ => Except.error Halt.indexError
        | Except.ok true => verifyLoop w cfg st rest
        | Except.ok false => Except.error (Halt.exit exitChecksumError)

/-- `Archiver.verifyChecksums`: `sys.exit(6)` when the error flag is already
set, otherwise run the `remotechecksum` batch and the per-source comparison
loop. -/
def verifyChecksums (w : World) (cfg : Config) (st : ArchState) (tr : Trace) :
    Trace × Except Halt ArchState :=
  if st.errors then (tr, Except.error (Halt.exit exitVerifySkipped))
  else
    match buildCommands w cfg "remotechecksum" st tr with
    | (tr', Except.error h) => (tr', Except.error h)
    | (tr', Except.ok (st', hosts)) =>
      match runProcs w "remotechecksum" hosts st' with
      | Except.error h => (tr', Except.error h)
      | Except.ok st'' =>
        match verifyLoop w cfg st'' cfg.sources with
        | Except.error h => (tr', Except.error h)
        | Except.ok _ => (tr', Except.ok st'')

/-- `Archiver.clean`: `sys.exit(0)` when `--clean` was not requested,
`sys.exit(7)` when the error flag is set, otherwise build, launch and drain
the `clean` batch. -/
def clean (w : World) (cfg : Config) (acts : Actions) (st : ArchState) (tr : Trace) :
    Trace × Except Halt ArchState :=
  if !acts.clean then (tr, Except.error (Halt.exit 0))
  else if st.errors then (tr, Except.error (Halt.exit exitCleanSkipped))
  else
    match buildCommands w cfg "clean" st tr with
    | (tr', Except.error h) => (tr', Except.error h)
    | (tr', Except.ok (st', hosts)) => (tr', runProcs w "clean" hosts st')

/-- `Archiver.run`: the archive, verify, clean pipeline, together with the
trace of every command launched before the process terminated. -/
def runArchiver (w : World) (cfg : Config) (acts : Actions) :
    Trace × Except Halt ArchState :=
  match archive w cfg initState [] with
  | (tr, Except.error h) => (tr, Except.error h)
  | (tr, Except.ok st) =>
    match verifyChecksums w cfg st tr with
    | (tr', Except.error h) => (tr', Except.error h)
    | (tr', Except.ok st') => clean w cfg acts st' tr'

/-- The option loop of `Archiver.setupArguments`.  Note the Python membership
tests `opt in ('--clean')` and `opt in ('--run')` operate on a plain string,
hence are substring tests. -/
def setupArgsLoop : List String → Actions → Except Halt Actions
  | [], acts => Except.ok acts
  | opt :: rest, acts =>
    if opt = "-h" ∨ opt = "--help" then Except.error (Halt.exit 1)
    else if pyInStr opt "--clean" then setupArgsLoop rest { acts with clean := true }
    else if pyInStr opt "--run" then setupArgsLoop rest { acts with run := true }
    else setupArgsLoop rest acts

/-- `Archiver.setupArguments` on an already-tokenised option list: parse the
options, then `sys.exit(1)` after printing usage when `--run` is absent. -/
def setupArguments (opts : List String) : Except Halt Actions :=
  match setupArgsLoop opts ⟨false, false⟩ with
  | Except.error h => Except.error h
  | Except.ok acts =>
    if !acts.run then Except.error (Halt.exit exitUsage) else Except.ok acts

/-! Concrete fixtures used to evaluate the model on explicit inputs. -/

/-- Trivial oracle world: every process succeeds with empty output, folders
create fine, no local file is readable. -/
def wTriv : World where
  procResult := fun _ _ => ⟨"", "", 0⟩
  schedule := fun _ hosts => hosts
  mkdirs := fun _ => none
  isdir := fun _ => true
  readFile := fun _ => none
  md5Hex := fun _ => ""

/-- World in which every process fails with return code 1 and error output. -/
def wErr : World :=
  { wTriv with procResult := fun _ _ => ⟨"", "boom", 1⟩ }

/-- A first source descriptor. -/
def srcA : Source := ⟨"host1", "u", "/data", "gz", "30"⟩

/-- A second source descriptor with a different host. -/
def srcB : Source := ⟨"host2", "u", "/data", "gz", "30"⟩

/-- A single-host configuration. -/
def cfg1 : Config := ⟨"/tmp/target", [srcA]⟩

/-- Actions with both `--run` and `--clean` requested. -/
def acts1 : Actions := ⟨true, true⟩

/-- Result-store state holding a fresh entry for `host1` under `archive`. -/
def stOneHost : ArchState := ⟨[("archive", [("host1", emptyHostResult)])], false⟩

/-- The state `stOneHost` becomes after collecting a failed `host1` process. -/
def stAfterErr : ArchState := ⟨[("archive", [("host1", ⟨some 1, "", "boom"⟩)])], true⟩

/-- A state with the error flag already set. -/
def stErr : ArchState := ⟨[], true⟩

/-- A state holding an empty remotechecksum output for `host1`. -/
def stRS : ArchState := ⟨[("remotechecksum", [("host1", ⟨some 0, "", ""⟩)])], false⟩

/-- A state holding a one-file remotechecksum listing for `host1`. -/
def stRSbad : ArchState :=
  ⟨[("remotechecksum", [("host1", ⟨some 0, "abc  /data/f.gz\n", ""⟩)])], false⟩

/-- World of a fully successful single-host run: the remote checksum sweep
reports one file and the local copy hashes to the same value. -/
def wGood : World :=
  { wTriv with
    procResult := fun ns _ =>
      if ns = "remotechecksum" then ⟨"abc  /data/f.gz\n", "", 0⟩ else ⟨"", "", 0⟩,
    readFile := fun _ => some "content",
    md5Hex := fun _ => "abc" }

/-- The clean command the model builds for `srcA`. -/
def cleanCmdA : String :=
  "ssh u@host1 find /data -type f -name \"*.gz\" -mtime +30 -exec rm \x7b\x7d \\;"

end Archiver

namespace Archiver

/-! Helper lemmas. -/

/-- Unfolding of the error-flag update of `recordProc` on success. -/
theorem recordProc_errors_rule (st : ArchState) (ns host : String) (r : ProcResult)
    (st' : ArchState) (h : recordProc st ns host r = Except.ok st') :
    st'.errors = (if r.returncode > 0 ∨ r.stderr.length > 0 then true else st.errors) := by
  unfold recordProc at h
  split at h
  · exact Except.noConfusion h
  · split at h
    · exact Except.noConfusion h
    · injection h with h'
      subst h'
      rfl

/-! Settled claims. -/

/-- C3: the claim fails on the code and the spec is the evident intent: with
two configured hosts, `initProcessInfo` leaves the namespace dict holding
only the LAST host's entry (each loop iteration replaces the whole inner
dict with a singleton), so `host1` has no entry before results are
recorded and `runProcs` raises `KeyError` for it. -/
theorem initProcessInfo_keeps_only_last_host :
    pyGet (initProcessInfo [srcA, srcB] [] "archive") "archive"
      = some [("host2", emptyHostResult)] ∧
    (pyGet (initProcessInfo [srcA, srcB] [] "archive") "archive").bind
      (fun inner => pyGet inner "host1") = none := by
  exact ⟨rfl, rfl⟩

/-- C4 counterexample: the captured listing `"\n"` parses to ZERO entries,
yet `compareHashes` returns `True` for it, because the code tests the raw
output for emptiness before parsing; a nonempty output with zero parsed
entries passes trivially. -/
theorem compareHashes_zero_entries_passes :
    getHashes "\n" = Except.ok [] ∧
    compareHashes wTriv "/tmp/target" srcA "\n" = Except.ok true := by
  exact ⟨rfl, rfl⟩

/-- C4 amended: verification for a host fails when the raw captured remote
output is the empty byte string (`compareHashes` returns `False` for it);
it is the raw output, not the parsed entry count, that is tested. -/
theorem compareHashes_empty_raw_output_fails (w : World) (targetFolder : String)
    (source : Source) :
    compareHashes w targetFolder source "" = Except.ok false := rfl

/-- C6: `buildTargetFolder` returns the join of the target root, the host
and the remote folder; it succeeds silently when `makedirs` raises `EEXIST`
and a directory is at the path, and re-raises any other `OSError`,
including `EEXIST` with a non-directory occupying the path. -/
theorem buildTargetFolder_join_and_error_propagation (w : World)
    (targetFolder sourceHost sourceFolder : String) :
    (w.mkdirs (targetFolder ++ "/" ++ sourceHost ++ sourceFolder) = none →
      buildTargetFolder w targetFolder sourceHost sourceFolder
        = Except.ok (targetFolder ++ "/" ++ sourceHost ++ sourceFolder)) ∧
    (∀ e, w.mkdirs (targetFolder ++ "/" ++ sourceHost ++ sourceFolder) = some e →
      e.errno = EEXIST →
      w.isdir (targetFolder ++ "/" ++ sourceHost ++ sourceFolder) = true →
      buildTargetFolder w targetFolder sourceHost sourceFolder
        = Except.ok (targetFolder ++ "/" ++ sourceHost ++ sourceFolder)) ∧
    (∀ e, w.mkdirs (targetFolder ++ "/" ++ sourceHost ++ sourceFolder) = some e →
      (e.errno ≠ EEXIST ∨
        w.isdir (targetFolder ++ "/" ++ sourceHost ++ sourceFolder) = false) →
      buildTargetFolder w targetFolder sourceHost sourceFolder
        = Except.error (Halt.osErr e)) := by
  refine ⟨?_, ?_, ?_⟩
  · intro h
    simp [buildTargetFolder, h]
  · intro e he herr hdir
    simp [buildTargetFolder, he, herr, hdir]
  · intro e he hbad
    rcases hbad with hbad | hbad
    · simp [buildTargetFolder, he, hbad]
    · simp [buildTargetFolder, he, hbad]

/-- C6 witness: with a world in which `makedirs` succeeds, the function
returns the joined path for a concrete host and folder. -/
theorem buildTargetFolder_witness :
    buildTargetFolder wTriv "/tmp/target" "host1" "/data"
      = Except.ok ("/tmp/target" ++ "/" ++ "host1" ++ "/data") :=
  (buildTargetFolder_join_and_error_propagation wTriv "/tmp/target" "host1" "/data").1 rfl

/-- C10: a file path that cannot be opened or read makes
`calculateLocalHash` return the non-hash value `False` (modelled `none`)
rather than raising, and any listing pair naming such a path makes the
comparison loop of `compareHashes` report a mismatch (`False`) instead of
crashing. -/
theorem unreadable_local_file_fails_verification (w : World)
    (localFolder hash filename : String) (pairs : List (String × String))
    (hmem : (hash, filename) ∈ pairs)
    (hread : w.readFile (localFolder ++ filename) = none) :
    calculateLocalHash w (localFolder ++ filename) = none ∧
    compareHashesLoop w localFolder pairs = false := by
  constructor
  · simp [calculateLocalHash, hread]
  · induction pairs with
    | nil => cases hmem
    | cons p rest ih =>
      rcases List.mem_cons.mp hmem with heq | hmem'
      · rw [← heq]
        simp [compareHashesLoop, calculateLocalHash, hread]
      · obtain ⟨ph, pf⟩ := p
        simp only [compareHashesLoop]
        split
        · exact ih hmem'
        · rfl

/-- C10 witness: concrete mismatch for an unreadable file. -/
theorem unreadable_local_file_witness :
    calculateLocalHash wTriv ("/tmp/target/host1" ++ "/data/f.gz") = none ∧
    compareHashesLoop wTriv "/tmp/target/host1" [("abc", "/data/f.gz")] = false :=
  unreadable_local_file_fails_verification wTriv "/tmp/target/host1" "abc" "/data/f.gz"
    [("abc", "/data/f.gz")] (by simp) rfl

/-- C2 counterexample: a process killed by a signal reports a NONZERO
(negative) return code, yet with empty error output the flag stays unset
when its result is collected, because the code tests `returncode > 0`. -/
theorem errorFlag_negative_returncode_not_set :
    ((-9 : Int) ≠ 0) ∧
    (recordProc stOneHost "archive" "host1" ⟨"", "", -9⟩).map ArchState.errors
      = Except.ok false := by
  exact ⟨by decide, rfl⟩

/-- C2 amended: collecting a host result with return code strictly greater
than zero or non-empty error output sets the error flag, and the flag is
monotone: once set it is never cleared by any later collection in the
batch. -/
theorem errorFlag_positive_rc_sets_and_monotone (w : World) (ns : String)
    (hosts : List String) (st st' : ArchState)
    (h : runProcsLoop w ns hosts st = Except.ok st') :
    (st.errors = true → st'.errors = true) ∧
    (∀ host ∈ hosts, ((w.procResult ns host).returncode > 0 ∨
        (w.procResult ns host).stderr.length > 0) → st'.errors = true) := by
  induction hosts generalizing st with
  | nil =>
    simp only [runProcsLoop] at h
    injection h with h'
    subst h'
    exact ⟨fun hh => hh, fun host hmem => absurd hmem (List.not_mem_nil host)⟩
  | cons host rest ih =>
    simp only [runProcsLoop] at h
    cases hr : recordProc st ns host (w.procResult ns host) with
    | error e => rw [hr] at h; exact Except.noConfusion h
    | ok st1 =>
      rw [hr] at h
      have hrule := recordProc_errors_rule st ns host (w.procResult ns host) st1 hr
      obtain ⟨ihmono, ihall⟩ := ih st1 h
      constructor
      · intro hset
        apply ihmono
        rw [hrule]
        split
        · rfl
        · exact hset
      · intro host' hmem' hcond
        rcases List.mem_cons.mp hmem' with heq | hmem''
        · apply ihmono
          rw [hrule]
          subst heq
          simp [hcond]
        · exact ihall host' hmem'' hcond

/-- C2 witness: a concrete failed host sets the flag. -/
theorem errorFlag_positive_rc_witness :
    runProcsLoop wErr "archive" ["host1"] stOneHost = Except.ok stAfterErr ∧
    stAfterErr.errors = true :=
  ⟨rfl, (errorFlag_positive_rc_sets_and_monotone wErr "archive" ["host1"] stOneHost
    stAfterErr rfl).2 "host1" (by simp) (by decide)⟩

/-- C8: each failure class exits with its own non-zero code and the codes are
pairwise distinct: usage / missing `--run` (1), unknown operation kind (4),
any-host batch error (3), checksum mismatch (5), verification skipped after
a prior error (6), cleanup skipped after a prior error (7); a representative
concrete behaviour is included for every class. -/
theorem exit_codes_distinct_per_failure_class :
    (exitUsage ≠ 0 ∧ exitInvalidCommand ≠ 0 ∧ exitBatchErrors ≠ 0 ∧
      exitChecksumError ≠ 0 ∧ exitVerifySkipped ≠ 0 ∧ exitCleanSkipped ≠ 0) ∧
    (exitUsage ≠ exitInvalidCommand ∧ exitUsage ≠ exitBatchErrors ∧
      exitUsage ≠ exitChecksumError ∧ exitUsage ≠ exitVerifySkipped ∧
      exitUsage ≠ exitCleanSkipped ∧ exitInvalidCommand ≠ exitBatchErrors ∧
      exitInvalidCommand ≠ exitChecksumError ∧ exitInvalidCommand ≠ exitVerifySkipped ∧
      exitInvalidCommand ≠ exitCleanSkipped ∧ exitBatchErrors ≠ exitChecksumError ∧
      exitBatchErrors ≠ exitVerifySkipped ∧ exitBatchErrors ≠ exitCleanSkipped ∧
      exitChecksumError ≠ exitVerifySkipped ∧ exitChecksumError ≠ exitCleanSkipped ∧
      exitVerifySkipped ≠ exitCleanSkipped) ∧
    setupArguments ["--clean"] = Except.error (Halt.exit exitUsage) ∧
    buildCommands wTriv cfg1 "bogus" initState []
      = ([], Except.error (Halt.exit exitInvalidCommand)) ∧
    runProcs wErr "archive" ["host1"] stOneHost
      = Except.error (Halt.exit exitBatchErrors) ∧
    verifyLoop wTriv cfg1 stRS [srcA] = Except.error (Halt.exit exitChecksumError) ∧
    verifyChecksums wTriv cfg1 stErr [] = ([], Except.error (Halt.exit exitVerifySkipped)) ∧
    clean wTriv cfg1 acts1 stErr [] = ([], Except.error (Halt.exit exitCleanSkipped)) :=
  ⟨by decide, by decide, rfl, rfl, rfl, rfl, rfl, rfl⟩

/-- C5: the first listing pair whose recomputed local hash differs from the
remote hash makes the comparison loop return `False` without examining any
later pair (the result does not depend on the pairs after the mismatch),
the verify loop then exits with the checksum-failure code, and that code is
distinct from the batch-error and cleanup-skipped codes. -/
theorem first_mismatch_short_circuits_and_exits_checksum :
    (∀ (w : World) (localFolder : String) (pre : List (String × String))
        (bad : String × String) (post post' : List (String × String)),
      (∀ p ∈ pre, calculateLocalHash w (localFolder ++ p.2) = some p.1) →
      calculateLocalHash w (localFolder ++ bad.2) ≠ some bad.1 →
      compareHashesLoop w localFolder (pre ++ bad :: post) = false ∧
      compareHashesLoop w localFolder (pre ++ bad :: post)
        = compareHashesLoop w localFolder (pre ++ bad :: post')) ∧
    (∀ (w : World) (cfg : Config) (st : ArchState) (src : Source)
        (rest : List Source) (builtFolder out : String),
      buildTargetFolder w cfg.targetFolder src.host src.folder = Except.ok builtFolder →
      recordedStdout st "remotechecksum" src.host = some out →
      compareHashes w cfg.targetFolder src out = Except.ok false →
      verifyLoop w cfg st (src :: rest) = Except.error (Halt.exit exitChecksumError)) ∧
    exitChecksumError ≠ exitBatchErrors ∧ exitChecksumError ≠ exitCleanSkipped := by
  refine ⟨?_, ?_, by decide, by decide⟩
  · intro w lf pre bad post post' hpre hbad
    induction pre with
    | nil =>
      obtain ⟨bh, bf⟩ := bad
      simp only [List.nil_append, compareHashesLoop]
      rw [if_neg hbad, if_neg hbad]
      exact ⟨rfl, rfl⟩
    | cons p pre' ih =>
      obtain ⟨ph, pf⟩ := p
      have hp : calculateLocalHash w (lf ++ pf) = some ph :=
        hpre (ph, pf) (List.mem_cons_self _ _)
      have ih' := ih (fun q hq => hpre q (List.mem_cons_of_mem _ hq))
      simpa [compareHashesLoop, hp] using ih'
  · intro w cfg st src rest builtFolder out hbt hout hcmp
    simp only [verifyLoop, hbt, hout, hcmp]

/-- C5 witness: a concrete first mismatch short-circuits and exits 5. -/
theorem first_mismatch_witness :
    (compareHashesLoop wTriv "/tmp/target/host1"
        [("abc", "/data/f.gz"), ("zzz", "/g")] = false ∧
      compareHashesLoop wTriv "/tmp/target/host1"
        [("abc", "/data/f.gz"), ("zzz", "/g")]
        = compareHashesLoop wTriv "/tmp/target/host1" [("abc", "/data/f.gz")]) ∧
    verifyLoop wTriv cfg1 stRSbad [srcA] = Except.error (Halt.exit exitChecksumError) :=
  ⟨first_mismatch_short_circuits_and_exits_checksum.1 wTriv "/tmp/target/host1" []
      ("abc", "/data/f.gz") [("zzz", "/g")] [] (by simp) (by decide),
    first_mismatch_short_circuits_and_exits_checksum.2.1 wTriv cfg1 stRSbad srcA []
      ("/tmp/target" ++ "/" ++ "host1" ++ "/data") "abc  /data/f.gz\n" rfl rfl rfl⟩

/-- Every trace entry appended by `buildCommandsLoop` carries the namespace
of the batch being launched. -/
theorem buildCommandsLoop_trace (w : World) (cfg : Config) (ns : String) :
    ∀ (srcs : List Source) (tr : Trace) (e : String × String),
      e ∈ (buildCommandsLoop w cfg ns srcs tr).1 → e ∈ tr ∨ e.1 = ns := by
  intro srcs
  induction srcs with
  | nil => intro tr e he; exact Or.inl he
  | cons src rest ih =>
    intro tr e he
    simp only [buildCommandsLoop] at he
    cases hbt : buildTargetFolder w cfg.targetFolder src.host src.folder with
    | error h => simp only [hbt] at he; exact Or.inl he
    | ok bf =>
      simp only [hbt] at he
      cases hbc : buildCmd ns src bf with
      | none => simp only [hbc] at he; exact Or.inl he
      | some cmd =>
        simp only [hbc] at he
        rcases hrec : buildCommandsLoop w cfg ns rest (tr ++ [(ns, cmd)]) with ⟨tr', res⟩
        rw [hrec] at he
        have he' : e ∈ tr' := by cases res <;> exact he
        have hmem := ih (tr ++ [(ns, cmd)]) e (by rw [hrec]; exact he')
        rcases hmem with hin | hns
        · rcases List.mem_append.mp hin with h1 | h2
          · exact Or.inl h1
          · right
            rw [List.mem_singleton.mp h2]
        · exact Or.inr hns

/-- The trace of `buildCommands` is that of its loop. -/
theorem buildCommands_trace (w : World) (cfg : Config) (ns : String)
    (st : ArchState) (tr : Trace) (e : String × String)
    (he : e ∈ (buildCommands w cfg ns st tr).1) : e ∈ tr ∨ e.1 = ns := by
  simp only [buildCommands] at he
  rcases hbl : buildCommandsLoop w cfg ns cfg.sources tr with ⟨tr', res⟩
  rw [hbl] at he
  have he' : e ∈ tr' := by cases res <;> exact he
  exact buildCommandsLoop_trace w cfg ns cfg.sources tr e (by rw [hbl]; exact he')

/-- The archive phase does not change the trace after launching. -/
theorem archive_trace_eq (w : World) (cfg : Config) (st : ArchState) (tr : Trace) :
    (archive w cfg st tr).1 = (buildCommands w cfg "archive" st tr).1 := by
  unfold archive
  rcases hbc : buildCommands w cfg "archive" st tr with ⟨tr', res⟩
  rcases res with h | ⟨st', hosts⟩ <;> rfl

/-- A trace entry of the archive phase is inherited or archive-tagged. -/
theorem archive_trace_mem (w : World) (cfg : Config) (st : ArchState) (tr : Trace)
    (e : String × String) (he : e ∈ (archive w cfg st tr).1) :
    e ∈ tr ∨ e.1 = "archive" :=
  buildCommands_trace w cfg "archive" st tr e (by rw [← archive_trace_eq]; exact he)

/-- A trace entry of the verify phase is inherited or remotechecksum-tagged. -/
theorem verifyChecksums_trace_mem (w : World) (cfg : Config) (st : ArchState)
    (tr : Trace) (e : String × String) (he : e ∈ (verifyChecksums w cfg st tr).1) :
    e ∈ tr ∨ e.1 = "remotechecksum" := by
  unfold verifyChecksums at he
  by_cases herr : st.errors
  · rw [if_pos herr] at he
    exact Or.inl he
  · rw [if_neg herr] at he
    rcases hbc : buildCommands w cfg "remotechecksum" st tr with ⟨tr', res⟩
    rw [hbc] at he
    have he' : e ∈ tr' := by
      rcases res with h | ⟨st', hosts⟩
      · exact he
      · cases hrp : runProcs w "remotechecksum" hosts st' with
        | error h => simp only [hrp] at he; exact he
        | ok st'' =>
          simp only [hrp] at he
          cases hvl : verifyLoop w cfg st'' cfg.sources with
          | error h => simp only [hvl] at he; exact he
          | ok u => simp only [hvl] at he; exact he
    exact buildCommands_trace w cfg "remotechecksum" st tr e (by rw [hbc]; exact he')

/-- On success `runProcs` leaves the error flag unset. -/
theorem runProcs_ok_errors_false (w : World) (ns : String) (hosts : List String)
    (st st' : ArchState) (h : runProcs w ns hosts st = Except.ok st') :
    st'.errors = false := by
  unfold runProcs at h
  split at h
  · exact Except.noConfusion h
  · split at h
    · exact Except.noConfusion h
    · rename_i hcond
      injection h with h'
      subst h'
      simpa using hcond

/-- A successful archive phase leaves the error flag unset. -/
theorem archive_ok_errors_false (w : World) (cfg : Config) (st : ArchState)
    (tr trA : Trace) (stA : ArchState)
    (h : archive w cfg st tr = (trA, Except.ok stA)) : stA.errors = false := by
  unfold archive at h
  split at h
  · injection h with h1 h2
    exact Except.noConfusion h2
  · rename_i tr' st' hosts heq
    injection h with h1 h2
    exact runProcs_ok_errors_false w "archive" hosts st' stA h2

/-- A successful verify phase ran its comparison loop to completion. -/
theorem verifyChecksums_ok_loop (w : World) (cfg : Config) (st : ArchState)
    (tr trV : Trace) (stV : ArchState)
    (h : verifyChecksums w cfg st tr = (trV, Except.ok stV)) :
    verifyLoop w cfg stV cfg.sources = Except.ok () := by
  unfold verifyChecksums at h
  split at h
  · injection h with h1 h2
    exact Except.noConfusion h2
  · split at h
    · injection h with h1 h2
      exact Except.noConfusion h2
    · split at h
      · injection h with h1 h2
        exact Except.noConfusion h2
      · split at h
        · injection h with h1 h2
          exact Except.noConfusion h2
        · rename_i u heq
          injection h with h1 h2
          injection h2 with h3
          subst h3
          exact heq

/-- A comparison loop that completed successfully verified every source. -/
theorem verifyLoop_ok_all (w : World) (cfg : Config) (st : ArchState) :
    ∀ srcs, verifyLoop w cfg st srcs = Except.ok () →
      ∀ src ∈ srcs, ∃ out,
        recordedStdout st "remotechecksum" src.host = some out ∧
        compareHashes w cfg.targetFolder src out = Except.ok true := by
  intro srcs
  induction srcs with
  | nil => intro _ src hmem; cases hmem
  | cons s rest ih =>
    intro h src hmem
    simp only [verifyLoop] at h
    split at h
    · exact Except.noConfusion h
    · split at h
      · exact Except.noConfusion h
      · rename_i out hout
        split at h
        · exact Except.noConfusion h
        · rename_i hcmp
          rcases List.mem_cons.mp hmem with heq | hmem'
          · subst heq
            exact ⟨out, hout, hcmp⟩
          · exact ih h src hmem'
        · exact Except.noConfusion h

/-- C1: a clean command appears in the launch trace only when the archive
batch completed with the error flag unset and checksum verification
succeeded for every configured host; any batch error or any host's
verification failure terminates the run before any clean command is built
or started. -/
theorem clean_commands_require_clean_archive_and_full_verification
    (w : World) (cfg : Config) (acts : Actions) (cmd : String)
    (hmem : ("clean", cmd) ∈ (runArchiver w cfg acts).1) :
    ∃ trA stA trV stV,
      archive w cfg initState [] = (trA, Except.ok stA) ∧ stA.errors = false ∧
      verifyChecksums w cfg stA trA = (trV, Except.ok stV) ∧
      ∀ src ∈ cfg.sources, ∃ out,
        recordedStdout stV "remotechecksum" src.host = some out ∧
        compareHashes w cfg.targetFolder src out = Except.ok true := by
  rcases hA : archive w cfg initState [] with ⟨trA, resA⟩
  unfold runArchiver at hmem
  rw [hA] at hmem
  cases resA with
  | error h =>
    exfalso
    have hin : ("clean", cmd) ∈ trA := hmem
    have hor := archive_trace_mem w cfg initState [] ("clean", cmd)
      (by rw [hA]; exact hin)
    rcases hor with hnil | htag
    · exact List.not_mem_nil _ hnil
    · exact absurd (show ("clean" : String) = "archive" from htag) (by decide)
  | ok stA =>
    dsimp only at hmem
    rcases hV : verifyChecksums w cfg stA trA with ⟨trV, resV⟩
    rw [hV] at hmem
    cases resV with
    | error h =>
      exfalso
      have hin : ("clean", cmd) ∈ trV := hmem
      have hor := verifyChecksums_trace_mem w cfg stA trA ("clean", cmd)
        (by rw [hV]; exact hin)
      rcases hor with hinA | htag
      · have hor' := archive_trace_mem w cfg initState [] ("clean", cmd)
          (by rw [hA]; exact hinA)
        rcases hor' with hnil | htag'
        · exact List.not_mem_nil _ hnil
        · exact absurd (show ("clean" : String) = "archive" from htag') (by decide)
      · exact absurd (show ("clean" : String) = "remotechecksum" from htag) (by decide)
    | ok stV =>
      refine ⟨trA, stA, trV, stV, rfl, ?_, hV, ?_⟩
      · exact archive_ok_errors_false w cfg initState [] trA stA hA
      · exact verifyLoop_ok_all w cfg stV cfg.sources
          (verifyChecksums_ok_loop w cfg stA trA trV stV hV)

/-- Concatenation of strings concatenates their character lists. -/
theorem str_toList_append (s t : String) : (s ++ t).toList = s.toList ++ t.toList := by
  cases s
  cases t
  rfl

/-- Rebuilding a string from its character list is the identity. -/
theorem str_mk_toList (s : String) : String.mk s.toList = s := by
  cases s
  rfl

/-- Prepending to the first field of a cons result. -/
theorem consHead_cons (c : Char) (hd : List Char) (tl : List (List Char)) :
    consHead c (hd :: tl) = (c :: hd) :: tl := rfl

/-- The result of `consHead` is never empty. -/
theorem consHead_ne_nil (c : Char) (A : List (List Char)) : consHead c A ≠ [] := by
  cases A <;> simp [consHead]

/-- Prepending to the first field commutes with appending later fields. -/
theorem consHead_append (c : Char) (A B : List (List Char)) (h : A ≠ []) :
    consHead c (A ++ B) = consHead c A ++ B := by
  cases A with
  | nil => exact absurd rfl h
  | cons hd tl => rfl

/-- Python `split` never returns an empty list of fields (newline case). -/
theorem pySplitNl_ne_nil (l : List Char) : pySplitNl l ≠ [] := by
  match l with
  | [] => simp [pySplitNl]
  | c :: rest =>
    simp only [pySplitNl]
    split
    · simp
    · exact consHead_ne_nil _ _

/-- Python `split` never returns an empty list of fields (two-space case). -/
theorem pySplitSp_ne_nil (l : List Char) : pySplitSp l ≠ [] := by
  match l with
  | [] => simp [pySplitSp]
  | [c] => simp [pySplitSp]
  | c1 :: c2 :: rest =>
    simp only [pySplitSp]
    split
    · simp
    · exact consHead_ne_nil _ _

/-- A trailing newline contributes exactly one trailing empty field. -/
theorem pySplitNl_append_nl :
    ∀ l : List Char, pySplitNl (l ++ ['\n']) = pySplitNl l ++ [[]] := by
  intro l
  induction l with
  | nil => rfl
  | cons c rest ih =>
    simp only [List.cons_append, pySplitNl, List.append_eq]
    by_cases hc : c = '\n'
    · rw [if_pos hc, if_pos hc, ih]
      rfl
    · rw [if_neg hc, if_neg hc, ih, consHead_append c _ _ (pySplitNl_ne_nil rest)]

/-- A newline-free prefix becomes the first field of the split. -/
theorem pySplitNl_nlFree_append (b : List Char) :
    ∀ a, nlFree a = true → pySplitNl (a ++ '\n' :: b) = a :: pySplitNl b := by
  intro a
  induction a with
  | nil =>
    intro _
    simp [pySplitNl]
  | cons c rest ih =>
    intro h
    simp only [nlFree, List.all_cons, Bool.and_eq_true] at h
    obtain ⟨hc, hrest⟩ := h
    have hc' : c ≠ '\n' := by simpa using hc
    simp only [List.cons_append, pySplitNl, List.append_eq]
    rw [if_neg hc', ih hrest, consHead_cons]

/-- A newline-free string splits into a single field. -/
theorem pySplitNl_nlFree : ∀ a, nlFree a = true → pySplitNl a = [a] := by
  intro a
  induction a with
  | nil => intro _; rfl
  | cons c rest ih =>
    intro h
    simp only [nlFree, List.all_cons, Bool.and_eq_true] at h
    obtain ⟨hc, hrest⟩ := h
    have hc' : c ≠ '\n' := by simpa using hc
    simp only [pySplitNl]
    rw [if_neg hc', ih hrest, consHead_cons]

/-- A string with no two consecutive spaces splits into a single field. -/
theorem pySplitSp_sp2Free : ∀ l : List Char, sp2Free l = true → pySplitSp l = [l] := by
  intro l
  induction l with
  | nil => intro _; rfl
  | cons c rest ih =>
    intro h
    cases rest with
    | nil => rfl
    | cons c2 rest' =>
      simp only [sp2Free] at h
      split at h
      · simp at h
      · rename_i hcond
        simp only [pySplitSp]
        rw [if_neg hcond, ih h, consHead_cons]

/-- A separator-free prefix not ending in a space becomes the first field of
the two-space split. -/
theorem pySplitSp_append (b : List Char) :
    ∀ a : List Char, sp2Free a = true → a.getLast? ≠ some ' ' →
      pySplitSp (a ++ ' ' :: ' ' :: b) = a :: pySplitSp b := by
  intro a
  induction a with
  | nil =>
    intro _ _
    simp [pySplitSp]
  | cons c rest ih =>
    intro h hlast
    cases rest with
    | nil =>
      have hc : c ≠ ' ' := by simpa using hlast
      have hstep : pySplitSp (' ' :: ' ' :: b) = [] :: pySplitSp b := by
        simp [pySplitSp]
      have hgoal : pySplitSp ([c] ++ ' ' :: ' ' :: b)
          = consHead c (pySplitSp (' ' :: ' ' :: b)) := by
        simp only [List.cons_append, List.nil_append, pySplitSp]
        rw [if_neg (by rintro ⟨h1, _⟩; exact hc h1)]
      rw [hgoal, hstep, consHead_cons]
    | cons c2 rest' =>
      simp only [sp2Free] at h
      split at h
      · simp at h
      · rename_i hcond
        have hlast' : (c2 :: rest').getLast? ≠ some ' ' := by
          rwa [List.getLast?_cons_cons] at hlast
        have ih' := ih h hlast'
        rw [List.cons_append] at ih'
        simp only [List.cons_append, pySplitSp, List.append_eq]
        rw [if_neg hcond, ih', consHead_cons]

/-- The first Python dict write on an empty dict appends the pair. -/
theorem pyUpdate_nil {α : Type} (k : String) (v : α) : pyUpdate [] k v = [(k, v)] := rfl

/-- Writing an existing key overwrites its value in place. -/
theorem pyUpdate_single_overwrite {α : Type} (k : String) (v v' : α) :
    pyUpdate [(k, v)] k v' = [(k, v')] := by
  simp [pyUpdate]

/-- A trailing empty line contributes nothing to the hash dict. -/
theorem getHashesLines_append_blank :
    ∀ (ls : List String) (acc : List (String × String)),
      getHashesLines (ls ++ [String.mk []]) acc = getHashesLines ls acc := by
  intro ls
  induction ls with
  | nil => intro acc; rfl
  | cons l rest ih =>
    intro acc
    simp only [List.cons_append, getHashesLines]
    cases hgl : getHashesLine acc l with
    | error e => simp [hgl]
    | ok acc' => simp [hgl, ih]

/-- Processing a well-formed `hash  path` line writes `(hash, path)`. -/
theorem getHashesLine_wf (acc : List (String × String)) (hh pp : String)
    (hlen : hh.length > 0) (hsph : sp2Free hh.toList = true)
    (hlast : hh.toList.getLast? ≠ some ' ') (hspp : sp2Free pp.toList = true) :
    getHashesLine acc (String.mk (hh.toList ++ ' ' :: ' ' :: pp.toList))
      = Except.ok (pyUpdate acc hh pp) := by
  have h1 : (String.mk (hh.toList ++ ' ' :: ' ' :: pp.toList)).toList
      = hh.toList ++ ' ' :: ' ' :: pp.toList := rfl
  simp only [getHashesLine, h1]
  rw [pySplitSp_append _ _ hsph hlast, pySplitSp_sp2Free _ hspp]
  simp only [List.map_cons, List.map_nil]
  rw [str_mk_toList, str_mk_toList]
  rw [if_pos hlen]

/-- C7: hash-listing parsing is deterministic (parsing the same output twice
yields identical results), a trailing newline contributes no entry, and any
line whose hash field (the text before the first two-space separator) is
empty contributes no entry to the mapping. -/
theorem getHashes_deterministic_and_skips_empty_hash :
    (∀ s : String, getHashes s = getHashes s) ∧
    (∀ s : String, getHashes (s ++ "\n") = getHashes s) ∧
    (∀ (acc : List (String × String)) (line : String),
      (((pySplitSp line.toList).map String.mk).headD "").length = 0 →
      getHashesLine acc line = Except.ok acc) := by
  refine ⟨fun s => rfl, ?_, ?_⟩
  · intro s
    unfold getHashes
    rw [str_toList_append s "\n"]
    have hnl : ("\n" : String).toList = ['\n'] := rfl
    rw [hnl, pySplitNl_append_nl, List.map_append]
    simp only [List.map_cons, List.map_nil]
    exact getHashesLines_append_blank _ []
  · intro acc line h
    cases hp : (pySplitSp line.toList).map String.mk with
    | nil =>
      exfalso
      exact pySplitSp_ne_nil line.toList (List.map_eq_nil_iff.mp hp)
    | cons l0 rest =>
      rw [hp] at h
      simp only [List.headD_cons] at h
      simp only [getHashesLine, hp]
      rw [if_neg (by omega)]

/-- C7 witness: concrete trailing-newline and blank-line instances. -/
theorem getHashes_parse_witness :
    getHashes ("x" ++ "\n") = getHashes "x" ∧
    getHashesLine [] "" = Except.ok [] :=
  ⟨getHashes_deterministic_and_skips_empty_hash.2.1 "x",
    getHashes_deterministic_and_skips_empty_hash.2.2 [] "" (by decide)⟩

/-- C9: a listing with two lines carrying the same hash and two different
paths parses to a dict with a SINGLE entry for that hash, whose path is the
one of the later line (the later write overwrites the earlier), so only one
of the duplicate-content files is checked during verification. -/
theorem duplicate_hash_last_path_wins (h p1 p2 : String)
    (hlen : h.length > 0)
    (hnlh : nlFree h.toList = true) (hnlp1 : nlFree p1.toList = true)
    (hnlp2 : nlFree p2.toList = true)
    (hsph : sp2Free h.toList = true) (hlasth : h.toList.getLast? ≠ some ' ')
    (hsp1 : sp2Free p1.toList = true) (hsp2 : sp2Free p2.toList = true) :
    getHashes (h ++ "  " ++ p1 ++ "\n" ++ h ++ "  " ++ p2)
      = Except.ok [(h, p2)] := by
  have hspace : (!(' ' == '\n')) = true := by decide
  have hline1 : nlFree (h.toList ++ ' ' :: ' ' :: p1.toList) = true := by
    simp only [nlFree, List.all_append, List.all_cons, Bool.and_eq_true] at hnlh hnlp1 ⊢
    exact ⟨hnlh, hspace, hspace, hnlp1⟩
  have hline2 : nlFree (h.toList ++ ' ' :: ' ' :: p2.toList) = true := by
    simp only [nlFree, List.all_append, List.all_cons, Bool.and_eq_true] at hnlh hnlp2 ⊢
    exact ⟨hnlh, hspace, hspace, hnlp2⟩
  have htl : (h ++ "  " ++ p1 ++ "\n" ++ h ++ "  " ++ p2).toList
      = (h.toList ++ ' ' :: ' ' :: p1.toList) ++ '\n' ::
        (h.toList ++ ' ' :: ' ' :: p2.toList) := by
    simp only [str_toList_append, List.append_assoc, List.cons_append, List.nil_append]
    rfl
  unfold getHashes
  rw [htl, pySplitNl_nlFree_append _ _ hline1, pySplitNl_nlFree _ hline2]
  simp only [List.map_cons, List.map_nil]
  simp only [getHashesLines]
  rw [getHashesLine_wf [] h p1 hlen hsph hlasth hsp1]
  simp only [pyUpdate_nil]
  rw [getHashesLine_wf [(h, p1)] h p2 hlen hsph hlasth hsp2]
  rw [pyUpdate_single_overwrite]

/-- C9 witness: a concrete duplicate-hash listing keeps only the later path. -/
theorem duplicate_hash_witness :
    getHashes ("abc" ++ "  " ++ "/f1.gz" ++ "\n" ++ "abc" ++ "  " ++ "/f2.gz")
      = Except.ok [("abc", "/f2.gz")] :=
  duplicate_hash_last_path_wins "abc" "/f1.gz" "/f2.gz" (by decide) (by decide)
    (by decide) (by decide) (by decide) (by decide) (by decide) (by decide)

/-- C1 witness: a fully successful single-host run does launch the clean
command, and the gate conditions all hold for it. -/
theorem clean_commands_gate_witness :
    ∃ trA stA trV stV,
      archive wGood cfg1 initState [] = (trA, Except.ok stA) ∧ stA.errors = false ∧
      verifyChecksums wGood cfg1 stA trA = (trV, Except.ok stV) ∧
      ∀ src ∈ cfg1.sources, ∃ out,
        recordedStdout stV "remotechecksum" src.host = some out ∧
        compareHashes wGood cfg1.targetFolder src out = Except.ok true :=
  clean_commands_require_clean_archive_and_full_verification wGood cfg1 acts1
    cleanCmdA (by decide)

end Archiver
